import Mathlib

/-!
# Verification of the node-omron-fins FINS client core

A shallow embedding of the FINS protocol engine of this repository:
the address codec (`stringToAddress`, `addressToString`, `addressToBytes`
with the CS/CJ and CV memory-area tables), the frame assembly of
`FinsClient.prototype.read`, the end-code decoder `_processEndCode`,
the SID allocator `header.incrementSID`, the `SequenceManager` slot and
lifecycle logic, the queue-full path `_sendFull`, the multi-read response
walk `_processMultipleMemoryAreaRead`, and the data utilities
`_wordsToBytes` / `_normaliseBool` / `_boolsToBytes`.

JavaScript numbers that the source only ever uses as integers are
modelled as `Int` (or `Nat` where the source guarantees non-negativity);
JS bitwise operators, which coerce through 32-bit integers, are modelled
with an explicit `% 2^32` conversion.  JS strings are Lean `String`s,
with regex matching of the two concrete patterns in `stringToAddress`
translated into explicit `takeWhile`/`dropWhile` scans (the character
classes of those patterns are disjoint, so the greedy match never
backtracks and the scan is exact).
-/

/-! ## Character classes and digit strings

`[A-Z]` and `[0-9]` of the regexes in `FinsAddressUtil.stringToAddress`,
and the decimal rendering used by JS template strings and `Number(...)`.
-/

/-- The regex character class `[A-Z]`. -/
def isUpperChar (c : Char) : Bool := 65 ≤ c.toNat && c.toNat ≤ 90

/-- The regex character class `[0-9]`. -/
def isDigitChar (c : Char) : Bool := 48 ≤ c.toNat && c.toNat ≤ 57

/-- The decimal digit character for `n % 10` (JS `Number.prototype.toString`). -/
def digitChar (n : Nat) : Char :=
  match n with
  | 0 => '0' | 1 => '1' | 2 => '2' | 3 => '3' | 4 => '4'
  | 5 => '5' | 6 => '6' | 7 => '7' | 8 => '8' | _ => '9'

/-- Fuel-driven decimal rendering; `fuel ≥ n` always suffices. -/
def toDigitsAux : Nat → Nat → List Char → List Char
  | 0, n, acc => digitChar (n % 10) :: acc
  | fuel + 1, n, acc =>
    if n < 10 then digitChar n :: acc
    else toDigitsAux fuel (n / 10) (digitChar (n % 10) :: acc)

/-- Decimal digits of `n`, most significant first (JS `(n).toString()`).
JS renders numbers below `10^21` in this plain decimal form and switches
to exponential notation above; the round-trip theorem below stays inside
the safe-integer range `< 2^53`, far under that threshold, where this
model is exact. -/
def toDigits (n : Nat) : List Char := toDigitsAux n n []

/-- JS number-to-string conversion for a natural number (see `toDigits`
for the `< 2^53` domain on which this is exact). -/
def natToString (n : Nat) : String := ⟨toDigits n⟩

/-- Value of a list of decimal digit characters (JS `Number("…")` /
`parseInt("…")` on an all-digit string).  JS doubles represent integers
exactly only up to `Number.MAX_SAFE_INTEGER` (`2^53 - 1`) and round
larger values (e.g. `Number("9007199254740993") = 9007199254740992`), so
the theorems that rely on this exact model restrict their inputs to
values `< 2^53`. -/
def digitsVal (cs : List Char) : Nat :=
  cs.foldl (fun a c => 10 * a + (c.toNat - 48)) 0

/-- JS `Number(s)` on the digit capture of the address regexes.
`Number("") = 0`, and `digitsVal [] = 0`, so the capture always yields a
number; exact below `2^53` (see `digitsVal`).  The `Option` only mirrors
the `Address` field's type, whose `none` models a caller-supplied `NaN`
reaching `addressToString` — the parse itself never produces it. -/
def jsNumberOfDigits (cs : List Char) : Option Nat :=
  some (digitsVal cs)

/-! ## JS 32-bit coercion and `_wordsToBytes` (src/lib/data_utilities.js) -/

/-- JS `ToUint32`: the unsigned 32-bit pattern of an integer. -/
def jsToUint32 (w : Int) : Nat := (w % (4294967296 : Int)).toNat

/-- High byte pushed by `_wordsToBytes`: `(words[i] & 0xff00) >> 8`. -/
def wordHi (w : Int) : Nat := (jsToUint32 w &&& 0xff00) >>> 8

/-- Low byte pushed by `_wordsToBytes`: `words[i] & 0x00ff`. -/
def wordLo (w : Int) : Nat := jsToUint32 w &&& 0x00ff

/-- `_wordsToBytes` on an array argument: for each word push the high byte
then the low byte.  (The JS function wraps a non-array argument `x` into
`[x]`; call sites passing a scalar are modelled as passing `[x]`.) -/
def wordsToBytes : List Int → List Nat
  | [] => []
  | w :: rest => wordHi w :: wordLo w :: wordsToBytes rest

/-! ## SID allocation (`header.incrementSID`) -/

/-- `header.incrementSID`: `this.SID = (Math.abs(this.SID) % 254) + 1`. -/
def incrementSID (s : Int) : Int := ((s.natAbs % 254 : Nat) : Int) + 1

/-! ## FINS header (constants.DefaultFinsHeader and `header.build`) -/

/-- The ten header fields of a FINS frame. -/
structure FinsHeader where
  ICF : Int
  RSV : Int
  GCT : Int
  DNA : Int
  DA1 : Int
  DA2 : Int
  SNA : Int
  SA1 : Int
  SA2 : Int
  SID : Int
deriving DecidableEq, Repr

/-- `constants.DefaultFinsHeader`. -/
def DefaultFinsHeader : FinsHeader :=
  { ICF := 0x80, RSV := 0x00, GCT := 0x02, DNA := 0x00, DA1 := 0x00,
    DA2 := 0x00, SNA := 0x00, SA1 := 0x00, SA2 := 0x00, SID := 0x00 }

/-- `header.build()`: the ten header bytes in wire order. -/
def FinsHeader.build (h : FinsHeader) : List Int :=
  [h.ICF, h.RSV, h.GCT, h.DNA, h.DA1, h.DA2, h.SNA, h.SA1, h.SA2, h.SID]

/-- `header.incrementSID()` as a header-state update. -/
def FinsHeader.withNextSID (h : FinsHeader) : FinsHeader :=
  { h with SID := incrementSID h.SID }

/-- `constants.Commands.MEMORY_AREA_READ`. -/
def MEMORY_AREA_READ : List Int := [0x01, 0x01]

/-! ## Memory address model (`FinsAddressUtil.stringToAddress` result) -/

/-- A decoded memory address: `MemoryArea` is the mnemonic capture,
`Address` the word offset (`none` models the JS `NaN` from `Number("")`),
`Bit` the optional bit index (`none` models the JS empty-string capture,
which is not a number, so `isBitAddress` is false). -/
structure MemoryAddress where
  MemoryArea : String
  Address : Option Nat
  Bit : Option Nat
deriving DecidableEq, Repr

/-- The getter `isBitAddress`: `typeof this.Bit == "number"`. -/
def MemoryAddress.isBitAddress (a : MemoryAddress) : Bool := a.Bit.isSome

/-! ## Memory-area tables (src constants: CSCJ / CV, word and bit mode)

The JS tables are object literals, so indexing them with an arbitrary
mnemonic can also hit the own key `CalculateMemoryAreaAddress` or
inherited `Object.prototype` members (`"constructor"`, …), yielding a
truthy function instead of an area-code byte.  The mnemonics exercised by
the theorems below are ordinary area names, for which the lookup is plain
key-set membership as modelled here; the function-valued keys are outside
every theorem's inputs. -/

/-- A family's table pair member: area mnemonic to area-code byte,
plus the area-specific offset arithmetic. -/
structure MemAreaTable where
  code : String → Option Nat
  CalculateMemoryAreaAddress : String → Nat → Nat

/-- `constants.CSCJ_MODE_WD_MemoryAreas` area codes. -/
def cscjWdCode : String → Option Nat := fun a =>
  match a with
  | "E0" => some 0xA0 | "E1" => some 0xA1 | "E2" => some 0xA2 | "E3" => some 0xA3
  | "E4" => some 0xA4 | "E5" => some 0xA5 | "E6" => some 0xA6 | "E7" => some 0xA7
  | "E8" => some 0xA8 | "E9" => some 0xA9 | "EA" => some 0xAA | "EB" => some 0xAB
  | "EC" => some 0xAC | "EE" => some 0xAD | "EF" => some 0xAE
  | "E10" => some 0x60 | "E11" => some 0x61 | "E12" => some 0x62 | "E13" => some 0x63
  | "E14" => some 0x64 | "E15" => some 0x65 | "E16" => some 0x66 | "E17" => some 0x67
  | "E18" => some 0x68
  | "T" => some 0x89 | "C" => some 0x89 | "CIO" => some 0xB0 | "W" => some 0xB1
  | "H" => some 0xB2 | "A" => some 0xB3 | "D" => some 0x82
  | "IR" => some 0xDC | "DR" => some 0xBC
  | _ => none

/-- `constants.CSCJ_MODE_WD_MemoryAreas.CalculateMemoryAreaAddress`. -/
def cscjWdCalc (memoryArea : String) (memoryAddress : Nat) : Nat :=
  match memoryArea with
  | "A" => if memoryAddress > 447 then memoryAddress + 0x01C0 else memoryAddress
  | "C" => memoryAddress + 0x8000
  | _ => memoryAddress

/-- `constants.CSCJ_MODE_BIT_MemoryAreas` area codes. -/
def cscjBitCode : String → Option Nat := fun a =>
  match a with
  | "E0" => some 0x20 | "E1" => some 0x21 | "E2" => some 0x22 | "E3" => some 0x23
  | "E4" => some 0x24 | "E5" => some 0x25 | "E6" => some 0x26 | "E7" => some 0x27
  | "E8" => some 0x28 | "E9" => some 0x29 | "EA" => some 0x2A | "EB" => some 0x2B
  | "EC" => some 0x2C | "EE" => some 0x2D | "EF" => some 0x2E
  | "E10" => some 0x60 | "E11" => some 0xE1 | "E12" => some 0xE2 | "E13" => some 0xE3
  | "E14" => some 0xE4 | "E15" => some 0xE5 | "E16" => some 0xE6 | "E17" => some 0xE7
  | "E18" => some 0xE8
  | "T" => some 0x09 | "C" => some 0x09 | "CIO" => some 0x30 | "W" => some 0x31
  | "H" => some 0x32 | "A" => some 0x33 | "D" => some 0x02
  | _ => none

/-- `constants.CSCJ_MODE_BIT_MemoryAreas.CalculateMemoryAreaAddress`. -/
def cscjBitCalc (memoryArea : String) (memoryAddress : Nat) : Nat :=
  match memoryArea with
  | "A" =>
    if memoryAddress > 447 then memoryAddress * 16 + 0x01C0 else memoryAddress * 16
  | "C" => memoryAddress * 16 + 0x8000
  | _ => memoryAddress * 16

/-- `constants.CV_MODE_WD_MemoryAreas` area codes. -/
def cvWdCode : String → Option Nat := fun a =>
  match a with
  | "E0" => some 0x90 | "E1" => some 0x91 | "E2" => some 0x92 | "E3" => some 0x93
  | "E4" => some 0x94 | "E5" => some 0x95 | "E6" => some 0x96 | "E7" => some 0x97
  | "T" => some 0x81 | "C" => some 0x81 | "CIO" => some 0x80 | "A" => some 0x80
  | "D" => some 0x82 | "DR" => some 0x9C
  | _ => none

/-- `constants.CV_MODE_WD_MemoryAreas.CalculateMemoryAreaAddress`. -/
def cvWdCalc (memoryArea : String) (memoryAddress : Nat) : Nat :=
  match memoryArea with
  | "A" => if memoryAddress > 447 then memoryAddress + 0x0CC0 else memoryAddress + 0xB000
  | "C" => memoryAddress + 0x0800
  | _ => memoryAddress

/-- `constants.CV_MODE_BIT_MemoryAreas` area codes. -/
def cvBitCode : String → Option Nat := fun a =>
  match a with
  | "E0" => some 0x90 | "E1" => some 0x91 | "E2" => some 0x92 | "E3" => some 0x93
  | "E4" => some 0x94 | "E5" => some 0x95 | "E6" => some 0x96 | "E7" => some 0x97
  | "T" => some 0x01 | "C" => some 0x01 | "CIO" => some 0x00 | "A" => some 0x00
  | "D" => some 0x02
  | _ => none

/-- `constants.CV_MODE_BIT_MemoryAreas.CalculateMemoryAreaAddress`. -/
def cvBitCalc (memoryArea : String) (memoryAddress : Nat) : Nat :=
  match memoryArea with
  | "A" =>
    if memoryAddress > 447 then memoryAddress * 16 + 0x0CC0 else memoryAddress * 16 + 0xB000
  | "C" => memoryAddress * 16 + 0x0800
  | _ => memoryAddress * 16

/-- A PLC family's pair of tables (`self.memoryAreas` in `FinsAddressUtil`). -/
structure MemoryAreas where
  word : MemAreaTable
  bit : MemAreaTable

/-- `constants.MemoryAreas.CS`. -/
def MemoryAreasCS : MemoryAreas :=
  { word := ⟨cscjWdCode, cscjWdCalc⟩, bit := ⟨cscjBitCode, cscjBitCalc⟩ }

/-- `constants.MemoryAreas.CV`. -/
def MemoryAreasCV : MemoryAreas :=
  { word := ⟨cvWdCode, cvWdCalc⟩, bit := ⟨cvBitCode, cvBitCalc⟩ }

/-- The `switch (self.PLCType)` in the `FinsAddressUtil` constructor:
`"CV"` selects the CV tables, every other mode (including the default
`"CS"`) the CS tables. -/
def memoryAreasFor (PLCType : String) : MemoryAreas :=
  if PLCType = "CV" then MemoryAreasCV else MemoryAreasCS

/-- The getter `memoryAreaCode`: look the mnemonic up in the bit table for
bit addresses, the word table otherwise. -/
def MemoryAddress.memoryAreaCode (areas : MemoryAreas) (a : MemoryAddress) : Option Nat :=
  (if a.isBitAddress then areas.bit else areas.word).code a.MemoryArea

/-- `FinsAddressUtil.addressToBytes`: `[areaCode, offsetHi, offsetLo, bitOrZero]`,
or `null` when the mnemonic is missing from the selected table.  A `NaN`
word offset (`Address = none`) flows through the JS bitwise operators of
`wordsToBytes` as zero bytes. -/
def addressToBytes (areas : MemoryAreas) (a : MemoryAddress) : Option (List Nat) :=
  let memAreas := if a.isBitAddress then areas.bit else areas.word
  match memAreas.code a.MemoryArea with
  | none => none
  | some memAreaCode =>
    let addrBytes :=
      match a.Address with
      | some addr => wordsToBytes [(memAreas.CalculateMemoryAreaAddress a.MemoryArea addr : Int)]
      | none => [0, 0]
    some (memAreaCode :: addrBytes ++ [if a.isBitAddress then a.Bit.getD 0 else 0])

/-- `FinsAddressUtil.addressToString` (offsets already integers, so the
`isInt` normalisation is the identity): `area + (address + offsetWD)` and,
for bit addresses, `"." + (bit + offsetBit)`.  A `NaN` address renders as
`"NaN"` exactly as the JS template string would. -/
def addressToString (a : MemoryAddress) (offsetWD offsetBit : Nat) : String :=
  let addrStr : String :=
    match a.Address with
    | some n => natToString (n + offsetWD)
    | none => "NaN"
  match a.Bit with
  | some b => a.MemoryArea ++ addrStr ++ "." ++ natToString (b + offsetBit)
  | none => a.MemoryArea ++ addrStr

/-! ## `stringToAddress`: the two regex scans -/

/-- Scan for `/([A-Z]*)([0-9]*)\.?([0-9]*)/` at position 0 (the regex has
no anchors but its parts are all optional, so it always matches at the
start; its three character classes are disjoint, so the greedy match is
this left-to-right scan). -/
def regexMatchPlain (cs : List Char) : List Char × List Char × List Char :=
  let m1 := cs.takeWhile isUpperChar
  let r1 := cs.dropWhile isUpperChar
  let m2 := r1.takeWhile isDigitChar
  let r2 := r1.dropWhile isDigitChar
  let m3 :=
    match r2 with
    | '.' :: rest => rest.takeWhile isDigitChar
    | _ => []
  (m1, m2, m3)

/-- Split a character list at its LAST underscore: `some (before, after)`,
or `none` when there is no underscore.  This is how the greedy `(.+)_` of
`/(.+)_([0-9]*)\.?([0-9]*)/` divides the input. -/
def splitLastUnderscore : List Char → Option (List Char × List Char)
  | [] => none
  | c :: rest =>
    match splitLastUnderscore rest with
    | some (p, q) => some (c :: p, q)
    | none => if c = '_' then some ([], rest) else none

/-- `FinsAddressUtil.stringToAddress`.  Returns `none` when the regex does
not match at all (the JS code would then crash reading `matches[1]`): with
the underscore pattern that happens exactly when the only underscore is the
first character, since `(.+)` needs a non-empty prefix. -/
def stringToAddress (addressString : String) : Option MemoryAddress :=
  let cs := addressString.data
  let parts? : Option (List Char × List Char × List Char) :=
    if cs.contains '_' then
      match splitLastUnderscore cs with
      | some (m1, rest) =>
        if m1 = [] then none
        else
          let m2 := rest.takeWhile isDigitChar
          let r2 := rest.dropWhile isDigitChar
          let m3 :=
            match r2 with
            | '.' :: tail => tail.takeWhile isDigitChar
            | _ => []
          some (m1, m2, m3)
      | none => none
    else
      some (regexMatchPlain cs)
  match parts? with
  | none => none
  | some (m1, m2, m3) =>
    some
      { MemoryArea := ⟨m1⟩
        Address := jsNumberOfDigits m2
        Bit := if m3 = [] then none else some (digitsVal m3) }

/-! ## `FinsClient.prototype.read` frame assembly (UDP revision)

The packet is `buildPacket([header, command, [addressData, wordsToBytes(count)]])`,
i.e. the flattened concatenation of the built header, the command-code
pair and the command data.  The queue-full branch and the transmit are not
part of the assembled bytes; the assembly returns `null`-like `none` when
the address is invalid or the count is falsy, before any SID is minted.
-/

/-- The outbound bytes assembled by `read(address, count)` for a client
whose FINS header state is `h`: parse and encode the address, check the
count, advance the SID in place, then concatenate
`header ‖ command 0101 ‖ addressBytes ‖ countBytes`. -/
def readPacket (h : FinsHeader) (areas : MemoryAreas) (address : String) (count : Int) :
    Option (List Int) :=
  match stringToAddress address with
  | none => none
  | some memoryAddress =>
    match addressToBytes areas memoryAddress with
    | none => none
    | some addressData =>
      if count = 0 then none
      else
        let h2 := h.withNextSID
        some (h2.build ++ MEMORY_AREA_READ ++ addressData.map (fun b => (b : Int)) ++
          (wordsToBytes [count]).map (fun b => (b : Int)))

/-! ## End-code decoding (`_processEndCode`) -/

/-- Lowercase hex digit characters (JS `(n).toString(16)`). -/
def hexDigitChar (n : Nat) : Char :=
  match n with
  | 0 => '0' | 1 => '1' | 2 => '2' | 3 => '3' | 4 => '4'
  | 5 => '5' | 6 => '6' | 7 => '7' | 8 => '8' | 9 => '9'
  | 10 => 'a' | 11 => 'b' | 12 => 'c' | 13 => 'd' | 14 => 'e' | _ => 'f'

/-- Fuel-driven hex rendering; `fuel ≥ n` always suffices. -/
def toHexAux : Nat → Nat → List Char → List Char
  | 0, n, acc => hexDigitChar (n % 16) :: acc
  | fuel + 1, n, acc =>
    if n < 16 then hexDigitChar n :: acc
    else toHexAux fuel (n / 16) (hexDigitChar (n % 16) :: acc)

/-- JS `(n).toString(16)`: lowercase hex, no leading zeros. -/
def toHex (n : Nat) : List Char := toHexAux n n []

/-- The `while (endCode.length < 4) endCode = "0" + endCode;` loop.  Each
pass prepends one `'0'`; four passes always reach length ≥ 4, so fuel 4 is
exact. -/
def padTo4 : Nat → List Char → List Char
  | 0, cs => cs
  | fuel + 1, cs => if cs.length < 4 then padTo4 fuel ('0' :: cs) else cs

/-- `constants.EndCodeDescriptions` lookup. -/
def EndCodeDescriptions : String → Option String := fun k =>
  match k with
  | "0000" => some "Normal Completion."
  | "0001" => some "Service Cancelled."
  | "0101" => some "Local Error: Local node not in network."
  | "0102" => some "Local Error: Token Timeout."
  | "0103" => some "Local Error: Retries Failed."
  | "0104" => some "Local Error: Too many send frames."
  | "0105" => some "Local Error: Node address range error."
  | "0106" => some "Local Error: Node Address Duplication."
  | "0201" => some "Destination Node Error: Destination Node not in network."
  | "0202" => some "Destination Node Error: Unit Missing."
  | "0203" => some "Destination Node Error: Third Node missing."
  | "0204" => some "Destination Node Error: Destination Node busy."
  | "0205" => some "Destination Node Error: Response Timeout."
  | "0301" => some "Controller Error: Communications Controller Error."
  | "0302" => some "Controller Error: CPU Unit Error."
  | "0303" => some "Controller Error: Controller Error."
  | "0304" => some "Controller Error: Unit number Error."
  | "0401" => some "Service Unsupported: Undefined Command."
  | "0402" => some "Service Unsupported: Not supported by Model/Version."
  | "0501" => some "Routing Table Error: Destination address setting error."
  | "0502" => some "Routing Table Error: No routing tables."
  | "0503" => some "Routing Table Error: Routing table error."
  | "0504" => some "Routing Table Error: Too many delays."
  | "1001" => some "Command Format Error: Command too long."
  | "1002" => some "Command Format Error: Command too short."
  | "1003" => some "Command Format Error: Elements/Data don't match."
  | "1004" => some "Command Format Error: Command format error."
  | "1005" => some "Command Format Error: Header Error."
  | "1101" => some "Parameter Error: Area classification missing."
  | "1102" => some "Parameter Error: Access Size Error."
  | "1103" => some "Parameter Error: Address range error."
  | "1104" => some "Parameter Error: Address range exceeded."
  | "1106" => some "Parameter Error: Program Missing."
  | "1109" => some "Parameter Error: Relational Error."
  | "110A" => some "Parameter Error: Duplicate Data Access."
  | "110B" => some "Parameter Error: Response too long."
  | "110C" => some "Parameter Error: Parameter Error."
  | "2002" => some "Read Not Possible: Protected."
  | "2003" => some "Read Not Possible: Table missing."
  | "2004" => some "Read Not Possible: Data missing."
  | "2005" => some "Read Not Possible: Program missing."
  | "2006" => some "Read Not Possible: File missing."
  | "2007" => some "Read Not Possible: Data mismatch."
  | "2101" => some "Write Not Possible: Read Only."
  | "2102" => some "Write Not Possible: Protected - cannot write data link table."
  | "2103" => some "Write Not Possible: Cannot register."
  | "2105" => some "Write Not Possible: Program missing."
  | "2106" => some "Write Not Possible: File missing."
  | "2107" => some "Write Not Possible: File name already exists."
  | "2108" => some "Write Not Possible: Cannot change."
  | "2201" => some "Not executable in current mode: Not possible during execution."
  | "2202" => some "Not executable in current mode: Not possible while running."
  | "2203" => some "Not executable in current mode: Wrong PLC mode (Program)."
  | "2204" => some "Not executable in current mode:  Wrong PLC mode (Debug)."
  | "2205" => some "Not executable in current mode: Wrong PLC mode (Monitor)."
  | "2206" => some "Not executable in current mode: Wrong PLC mode (Run)."
  | "2207" => some "Not executable in current mode: Specified node not polling node."
  | "2208" => some "Not executable in current mode: Step cannot be executed."
  | "2301" => some "No such device: File device missing."
  | "2302" => some "No such device: Missing memory."
  | "2303" => some "No such device: Clock missing."
  | "2401" => some "Cannot Start/Stop: Table missing."
  | "2502" => some "Unit Error: Memory Error."
  | "2503" => some "Unit Error: I/O setting Error."
  | "2504" => some "Unit Error: Too many I/O points."
  | "2505" => some "Unit Error: CPU bus error."
  | "2506" => some "Unit Error: I/O Duplication."
  | "2507" => some "Unit Error: I/O bus error."
  | "2509" => some "Unit Error: SYSMAC BUS/2 error."
  | "250A" => some "Unit Error: CPU Bus Unit Error."
  | "250D" => some "Unit Error: SYSMAC BUS No. duplication."
  | "250F" => some "Unit Error: Memory Error."
  | "2510" => some "Unit Error: SYSMAC BUS terminator missing."
  | "2601" => some "Command Error: No protection."
  | "2602" => some "Command Error: Incorrect password."
  | "2604" => some "Command Error: Protected."
  | "2605" => some "Command Error: Service already executing."
  | "2606" => some "Command Error: Service stopped."
  | "2607" => some "Command Error: No execution right."
  | "2608" => some "Command Error: Settings not complete."
  | "2609" => some "Command Error: Necessary items not set."
  | "260A" => some "Command Error: Number already defined."
  | "260B" => some "Command Error: Error will not clear."
  | "3001" => some "Access Right Error: No access right."
  | "4001" => some "Abort: Service aborted."
  | _ => none

/-- The record built by `_processEndCode`. -/
structure EndCodeInfo where
  MRES : Nat
  SRES : Nat
  NetworkRelayError : Bool
  NonFatalCPUUnitErr : Bool
  FatalCPUUnitErr : Bool
  endCode : String
  endCodeDescription : String
deriving DecidableEq, Repr

/-- `_processEndCode(hiByte, loByte)`: flags from the raw bytes, then mask
`MRES &= 0x3f`, `SRES &= 0x2f`, render `(MRES << 8) + SRES` as hex padded
to four characters, and look up the description (JS `undefined + ""` for
unknown codes). -/
def processEndCode (hiByte loByte : Nat) : EndCodeInfo :=
  let NetworkRelayError := (hiByte &&& 0x80) > 0
  let NonFatalCPUUnitErr := (loByte &&& 0x40) > 0
  let FatalCPUUnitErr := (loByte &&& 0x80) > 0
  let MRES := hiByte &&& 0x3f
  let SRES := loByte &&& 0x2f
  let endCode : String := ⟨padTo4 4 (toHex ((MRES <<< 8) + SRES))⟩
  { MRES := MRES
    SRES := SRES
    NetworkRelayError := NetworkRelayError
    NonFatalCPUUnitErr := NonFatalCPUUnitErr
    FatalCPUUnitErr := FatalCPUUnitErr
    endCode := endCode
    endCodeDescription := (EndCodeDescriptions endCode).getD "undefined" }

/-! ## SequenceManager slots and lifecycle (src/unnamed SequenceManager) -/

/-- The mutable per-SID record created by `SequenceManager.add` (fields
that carry times, requests and stats are not needed by any claim; `error`
holds an `Error` object in JS, i.e. a truthy value exactly when set, so it
is modelled as a `Bool`; `timerLive` models a timer handle that has been
neither cancelled by `clearTimeout` nor fired). -/
structure Sequence where
  complete : Bool
  timeout : Bool
  error : Bool
  timerLive : Bool
deriving DecidableEq, Repr

/-- The guard in `SequenceManager.add` that raises
`Error("This SID is already waiting a reply")`:
`if (seq && !seq.complete && !seq.timeout)`. -/
def addReportsSidInUse (slot : Option Sequence) : Bool :=
  match slot with
  | some seq => !seq.complete && !seq.timeout
  | none => false

/-- The claim's notion of an occupied non-terminal slot, matching
`SequenceManager.activeCount`'s test
`!v.complete && !v.timeout && !v.error`. -/
def slotNonTerminal (slot : Option Sequence) : Bool :=
  match slot with
  | some seq => !seq.complete && !seq.timeout && !seq.error
  | none => false

/-- The state of a freshly added sequence: all flags false, timeout timer
armed. -/
def initSequence : Sequence :=
  { complete := false, timeout := false, error := false, timerLive := true }

/-- The lifecycle events that mutate a sequence after `add`:
the timeout timer firing, `done(SID)` and `setError(SID, err)`.
(`remove` and `close` delete the slot and cancel the timer without
touching the flags, and `confirmSent` touches neither flags nor timer,
so neither affects the properties below.) -/
inductive SeqEvent where
  | fire
  | done
  | setError
deriving DecidableEq, Repr

/-- One lifecycle step.
* `fire`: the armed timer fires (only possible while the timer is live);
  the callback body is `if (seq.complete || seq.error) return;` then
  `seq.timeout = true`.  A fired timer is no longer live.
* `done`: sets `seq.complete = true` unconditionally and clears the timer.
* `setError`: sets `seq.error` unconditionally and clears the timer. -/
def seqStep (s : Sequence) (e : SeqEvent) : Sequence :=
  match e with
  | .fire =>
    if s.timerLive then
      if s.complete || s.error then { s with timerLive := false }
      else { s with timeout := true, timerLive := false }
    else s
  | .done => { s with complete := true, timerLive := false }
  | .setError => { s with error := true, timerLive := false }

/-- The sequence reached from `add` by a list of lifecycle events.  This
over-approximates the reachable interleavings (every real schedule is some
event list), so invariants proved over all lists hold of the program. -/
def runSeq (events : List SeqEvent) : Sequence :=
  events.foldl seqStep initSequence

/-- How many terminal flags a sequence has set. -/
def terminalFlagCount (s : Sequence) : Nat :=
  (if s.complete then 1 else 0) + (if s.timeout then 1 else 0) +
    (if s.error then 1 else 0)

/-! ## The queue-full path (`_sendFull`, src/lib/fins_client.js)

`function _sendFull(self, callback) { if (callback) { callback("full", null); }
self.emit("full"); }` — the body first invokes the callback argument if it
is truthy, then calls `.emit` on the `self` argument, which throws a
`TypeError` unless that argument is the client instance. -/

/-- The JS values that reach `_sendFull`'s parameters at its call sites:
the client instance, a caller-supplied callback function, or `undefined`. -/
inductive JsArg where
  | client
  | callbackFn
  | jsUndefined
deriving DecidableEq, Repr

/-- What a `_sendFull` invocation does: whether the per-call callback was
invoked with `"full"`, whether the client emitted the `'full'` event, and
whether the invocation threw a `TypeError` (on `self.emit` when `self` is
not the client). -/
structure SendFullResult where
  callbackGotFull : Bool
  fullEventEmitted : Bool
  threwTypeError : Bool
deriving DecidableEq, Repr

/-- `_sendFull(self, callback)` with explicit arguments. -/
def sendFull (selfArg callbackArg : JsArg) : SendFullResult :=
  { callbackGotFull := callbackArg = .callbackFn
    fullEventEmitted := selfArg = .client
    threwTypeError := selfArg ≠ .client }

/-- The queue-full branch of `read` (and of `fill`, `readMultiple`,
`transfer`, `run`, `stop`, `status`, `cpuUnitDataRead`, `command`):
`_sendFull(self, callback)`. -/
def readFullBranch (callbackSupplied : Bool) : SendFullResult :=
  sendFull .client (if callbackSupplied then .callbackFn else .jsUndefined)

/-- The queue-full branch of `write`: `_sendFull(callback)` — the callback
(or `undefined`) arrives in the `self` parameter and the `callback`
parameter is `undefined`. -/
def writeFullBranch (callbackSupplied : Bool) : SendFullResult :=
  sendFull (if callbackSupplied then .callbackFn else .jsUndefined) .jsUndefined

/-! ## Multi-read response walk (`_processMultipleMemoryAreaRead`) -/

/-- A value pushed into the multi-read `data` array: a bit byte, a signed
16-bit word, or JS `undefined` (pushed when a bit entry's value byte is
past the end of the buffer — out-of-range `Buffer` indexing yields
`undefined` rather than throwing). -/
inductive MultiVal where
  | bit (b : Nat)
  | word (w : Int)
  | jsUndefined
deriving DecidableEq, Repr

/-- The two ways the walk can throw: the explicit
`Error("unexpected memory address in response")`, or the `RangeError`
raised by `buf.readInt16BE(i)` when fewer than two bytes remain. -/
inductive MultiErr where
  | unexpectedAddress
  | rangeError
deriving DecidableEq, Repr

/-- `buf.readInt16BE` on two bytes: big-endian, signed. -/
def readInt16BE (b1 b2 : Nat) : Int :=
  let v := b1 * 256 + b2
  if v < 32768 then (v : Int) else (v : Int) - 65536

/-- The loop of `_processMultipleMemoryAreaRead` over the response body
`bufData` (the bytes after offset 14): while bytes remain, shift the next
requested address, compare its `memoryAreaCode` against the echoed byte,
then consume one bit byte or two word bytes.  The loop ends as soon as the
body is exhausted, however many requested addresses remain. -/
def multiReadLoop (areas : MemoryAreas) :
    List MemoryAddress → List Nat → Except MultiErr (List MultiVal)
  | _, [] => .ok []
  | addrs, b :: rest =>
    match addrs with
    | [] => .error .unexpectedAddress
    | a :: as =>
      if a.memoryAreaCode areas ≠ some b then .error .unexpectedAddress
      else if a.isBitAddress then
        match rest with
        | [] => .ok [MultiVal.jsUndefined]
        | v :: rest2 =>
          match multiReadLoop areas as rest2 with
          | .error e => .error e
          | .ok vals => .ok (MultiVal.bit v :: vals)
      else
        match rest with
        | v1 :: v2 :: rest2 =>
          match multiReadLoop areas as rest2 with
          | .error e => .error e
          | .ok vals => .ok (MultiVal.word (readInt16BE v1 v2) :: vals)
        | _ => .error .rangeError

/-- The number of response-body bytes the claim says a request's address
list requires: one area-code byte plus one bit byte or two word bytes per
requested address. -/
def requiredBytes (addrs : List MemoryAddress) : Nat :=
  addrs.foldl (fun n a => n + 1 + (if a.isBitAddress then 1 else 2)) 0

/-- A response body that is well formed for (a prefix of) the request's
address list: for each address in turn, its echoed area code followed by
one bit byte or two word bytes. -/
inductive AlignedBody (areas : MemoryAreas) : List MemoryAddress → List Nat → Prop
  | nil : AlignedBody areas [] []
  | bit (a : MemoryAddress) (c v : Nat) (as : List MemoryAddress) (body : List Nat)
      (hc : a.memoryAreaCode areas = some c) (hb : a.isBitAddress = true)
      (h : AlignedBody areas as body) :
      AlignedBody areas (a :: as) (c :: v :: body)
  | word (a : MemoryAddress) (c v1 v2 : Nat) (as : List MemoryAddress) (body : List Nat)
      (hc : a.memoryAreaCode areas = some c) (hb : a.isBitAddress = false)
      (h : AlignedBody areas as body) :
      AlignedBody areas (a :: as) (c :: v1 :: v2 :: body)

/-! ## Boolean normalisation (`_normaliseBool`, `_boolsToBytes`) -/

/-- The JS values relevant to bit-write payloads: integers, strings and
booleans. -/
inductive JsVal where
  | num (n : Int)
  | str (s : String)
  | bool (b : Bool)
deriving DecidableEq, Repr

/-- JS whitespace stripped by `String.prototype.trim` (the ASCII subset;
the claim's values use at most spaces and tabs). -/
def isJsSpace (c : Char) : Bool := c = ' ' || c = '\t' || c = '\n' || c = '\r'

/-- JS `trim()`: drop whitespace from both ends. -/
def jsTrim (cs : List Char) : List Char :=
  ((cs.dropWhile isJsSpace).reverse.dropWhile isJsSpace).reverse

/-- JS `toLowerCase()` on the ASCII range. -/
def jsToLower (cs : List Char) : List Char :=
  cs.map fun c => if 65 ≤ c.toNat && c.toNat ≤ 90 then Char.ofNat (c.toNat + 32) else c

/-- JS number-to-string for property-key coercion (`(-3).toString() = "-3"`). -/
def intToChars (i : Int) : List Char :=
  if i < 0 then '-' :: toDigits i.natAbs else toDigits i.toNat

/-- The property key a value is coerced to when indexing
`allowableTrueValues` / `allowableFalseValues`, after the
`value.trim().toLowerCase()` normalisation applied to strings. -/
def normaliseBoolKey (v : JsVal) : List Char :=
  match v with
  | .str s => jsToLower (jsTrim s.data)
  | .num n => intToChars n
  | .bool b => if b then "true".data else "false".data

/-- `_normaliseBool(value, 1, 0)` as called from `_boolsToBytes`: the
object literals `allowableTrueValues` / `allowableFalseValues` have the
own string keys `"1" "true" "on"` and `"0" "false" "off"` (numeric and
boolean literal keys collapse onto these).  The JS index expression
`allowableTrueValues[value]` also walks the literal's prototype chain, so
the `Object.prototype` members are truthy hits too; after the
trim/lowercase normalisation the only reachable member names (the only
all-lowercase ones — `valueOf`, `hasOwnProperty`, `toString`, … all carry
an uppercase letter) are `"constructor"` and `"__proto__"`, and they
return `trueValue` (byte 1) from the first truthy test, before the false
table is consulted.  Any other key falls through both truthy tests and
throws `Error("Invalid boolean value")`. -/
def normaliseBool (v : JsVal) : Except String Nat :=
  if normaliseBoolKey v = "1".data ∨ normaliseBoolKey v = "true".data ∨
      normaliseBoolKey v = "on".data ∨ normaliseBoolKey v = "constructor".data ∨
      normaliseBoolKey v = "__proto__".data then .ok 1
  else if normaliseBoolKey v = "0".data ∨ normaliseBoolKey v = "false".data ∨
      normaliseBoolKey v = "off".data then .ok 0
  else .error "Invalid boolean value"

/-- `_boolsToBytes` on an array argument: normalise each element in order;
the first invalid element throws out of the loop. -/
def boolsToBytes : List JsVal → Except String (List Nat)
  | [] => .ok []
  | v :: rest =>
    match normaliseBool v with
    | .error e => .error e
    | .ok b =>
      match boolsToBytes rest with
      | .error e => .error e
      | .ok bs => .ok (b :: bs)

/-- The bit-address branch of `write`: the payload is `boolsToBytes(data)`
and the frame is `header ‖ command 0102 ‖ addressBytes ‖ count ‖ payload`.
A thrown `Error` propagates out of `write` before `_transmitCommand`, so
no frame is produced. -/
def writeBitPacket (header command addressData : List Nat) (data : List JsVal) :
    Except String (List Nat) :=
  match boolsToBytes data with
  | .error e => .error e
  | .ok payload =>
    .ok (header ++ command ++ addressData ++ wordsToBytes [(data.length : Int)] ++ payload)

/-- The claim's list of values that must encode to byte 1: the number `1`,
the boolean `true`, and strings whose trimmed lowercase form is `"1"`,
`"true"` or `"on"`. -/
def claimTrueValue (v : JsVal) : Prop :=
  v = .num 1 ∨ v = .bool true ∨
    ∃ s, v = .str s ∧
      (jsToLower (jsTrim s.data) = "1".data ∨ jsToLower (jsTrim s.data) = "true".data ∨
        jsToLower (jsTrim s.data) = "on".data)

/-- The values that hit an inherited `Object.prototype` member in the
truthy lookup: strings whose trimmed lowercase form is `"constructor"` or
`"__proto__"` (the only member names the lowercasing can produce; numeric
and boolean keys are digit or `true`/`false` strings and never reach the
prototype).  The source encodes these to byte 1, not an error. -/
def prototypeTrueValue (v : JsVal) : Prop :=
  ∃ s, v = .str s ∧
    (jsToLower (jsTrim s.data) = "constructor".data ∨
      jsToLower (jsTrim s.data) = "__proto__".data)

/-- The claim's list of values that must encode to byte 0. -/
def claimFalseValue (v : JsVal) : Prop :=
  v = .num 0 ∨ v = .bool false ∨
    ∃ s, v = .str s ∧
      (jsToLower (jsTrim s.data) = "0".data ∨ jsToLower (jsTrim s.data) = "false".data ∨
        jsToLower (jsTrim s.data) = "off".data)

/-! ## Helper lemmas: decimal digit strings -/

theorem digitChar_toNat (m : Nat) (h : m < 10) : (digitChar m).toNat = 48 + m := by
  interval_cases m <;> decide

theorem isDigitChar_digitChar (m : Nat) (h : m < 10) : isDigitChar (digitChar m) = true := by
  interval_cases m <;> decide

theorem isDigitChar_toNat_le {c : Char} (h : isDigitChar c = true) :
    48 ≤ c.toNat ∧ c.toNat ≤ 57 := by
  simp only [isDigitChar, Bool.and_eq_true, decide_eq_true_eq] at h
  exact h

theorem isUpperChar_toNat_le {c : Char} (h : isUpperChar c = true) :
    65 ≤ c.toNat ∧ c.toNat ≤ 90 := by
  simp only [isUpperChar, Bool.and_eq_true, decide_eq_true_eq] at h
  exact h

theorem not_upper_of_digit {c : Char} (h : isDigitChar c = true) : isUpperChar c = false := by
  have := isDigitChar_toNat_le h
  simp only [isUpperChar, Bool.and_eq_false_iff]
  left
  simpa using by omega

theorem digit_ne_underscore {c : Char} (h : isDigitChar c = true) : c ≠ '_' := by
  intro hc
  subst hc
  simp [isDigitChar] at h

theorem upper_ne_underscore {c : Char} (h : isUpperChar c = true) : c ≠ '_' := by
  intro hc
  subst hc
  simp [isUpperChar] at h

theorem toDigitsAux_append (fuel n : Nat) (acc : List Char) (h : n ≤ fuel) :
    toDigitsAux fuel n acc = toDigitsAux fuel n [] ++ acc := by
  induction fuel generalizing n acc with
  | zero => simp [toDigitsAux]
  | succ fuel ih =>
    by_cases hn : n < 10
    · simp [toDigitsAux, hn]
    · have hdiv : n / 10 ≤ fuel := by omega
      rw [toDigitsAux, toDigitsAux, if_neg hn, if_neg hn, ih _ _ hdiv,
        ih _ (digitChar (n % 10) :: []) hdiv, List.append_assoc]
      rfl

theorem toDigitsAux_fuel_irrel (fuel₁ fuel₂ n : Nat) (acc : List Char)
    (h₁ : n ≤ fuel₁) (h₂ : n ≤ fuel₂) :
    toDigitsAux fuel₁ n acc = toDigitsAux fuel₂ n acc := by
  induction fuel₁ generalizing fuel₂ n acc with
  | zero =>
    have : n = 0 := by omega
    subst this
    cases fuel₂ with
    | zero => rfl
    | succ f => simp [toDigitsAux]
  | succ fuel ih =>
    cases fuel₂ with
    | zero =>
      have : n = 0 := by omega
      subst this
      simp [toDigitsAux]
    | succ f =>
      by_cases hn : n < 10
      · simp [toDigitsAux, hn]
      · have hd : n / 10 ≤ fuel := by omega
        have hd2 : n / 10 ≤ f := by omega
        rw [toDigitsAux, toDigitsAux, if_neg hn, if_neg hn]
        exact ih f (n / 10) _ hd hd2

theorem toDigits_of_lt (n : Nat) (h : n < 10) : toDigits n = [digitChar n] := by
  cases n with
  | zero => rfl
  | succ m => simp [toDigits, toDigitsAux, h]

theorem toDigits_of_ge (n : Nat) (h : 10 ≤ n) :
    toDigits n = toDigits (n / 10) ++ [digitChar (n % 10)] := by
  obtain ⟨m, rfl⟩ : ∃ m, n = m + 1 := ⟨n - 1, by omega⟩
  have hn : ¬(m + 1 < 10) := by omega
  have hd : (m + 1) / 10 ≤ m := by omega
  rw [toDigits, toDigitsAux, if_neg hn,
    toDigitsAux_append m ((m + 1) / 10) _ hd,
    toDigitsAux_fuel_irrel m ((m + 1) / 10) ((m + 1) / 10) [] hd le_rfl]
  rfl

theorem toDigits_ne_nil (n : Nat) : toDigits n ≠ [] := by
  by_cases h : n < 10
  · rw [toDigits_of_lt n h]; simp
  · rw [toDigits_of_ge n (by omega)]; simp

theorem toDigits_all_digits (n : Nat) : ∀ c ∈ toDigits n, isDigitChar c = true := by
  induction n using Nat.strong_induction_on with
  | _ n ih =>
    by_cases h : n < 10
    · rw [toDigits_of_lt n h]
      intro c hc
      rw [List.mem_singleton] at hc
      subst hc
      exact isDigitChar_digitChar n h
    · rw [toDigits_of_ge n (by omega)]
      intro c hc
      rcases List.mem_append.mp hc with hc | hc
      · exact ih (n / 10) (by omega) c hc
      · rw [List.mem_singleton] at hc
        subst hc
        exact isDigitChar_digitChar _ (Nat.mod_lt _ (by omega))

theorem digitsVal_toDigits (n : Nat) : digitsVal (toDigits n) = n := by
  induction n using Nat.strong_induction_on with
  | _ n ih =>
    by_cases h : n < 10
    · rw [toDigits_of_lt n h]
      simp [digitsVal, digitChar_toNat n h]
    · rw [toDigits_of_ge n (by omega)]
      have hm : n % 10 < 10 := Nat.mod_lt _ (by omega)
      have := ih (n / 10) (by omega)
      simp only [digitsVal, List.foldl_append] at this ⊢
      rw [this]
      simp only [List.foldl_cons, List.foldl_nil, digitChar_toNat _ hm]
      omega

/-! ## Helper lemmas: JS word-to-byte arithmetic -/

theorem and_255_eq_mod (n : Nat) : n &&& 255 = n % 256 := by
  have h := Nat.and_pow_two_sub_one_eq_mod n 8
  norm_num at h
  exact h

theorem and_65280_shr8 (n : Nat) : (n &&& 65280) >>> 8 = n / 256 % 256 := by
  have h : (n &&& 65280) >>> 8 = (n >>> 8) &&& 255 := by
    apply Nat.eq_of_testBit_eq
    intro i
    have h65280 : (65280 : Nat) = 255 <<< 8 := by decide
    simp only [Nat.testBit_and, Nat.testBit_shiftRight, h65280, Nat.testBit_shiftLeft]
    have : (8 + i ≥ 8) = True := by simp
    simp [this, Nat.add_sub_cancel_left]
  rw [h, and_255_eq_mod, Nat.shiftRight_eq_div_pow]

theorem wordHi_eq (w : Int) : wordHi w = (w % 65536).toNat / 256 := by
  unfold wordHi jsToUint32
  rw [and_65280_shr8]
  have h32 : (0 : Int) ≤ w % 4294967296 := Int.emod_nonneg w (by norm_num)
  have h16 : (0 : Int) ≤ w % 65536 := Int.emod_nonneg w (by norm_num)
  have hmod : (w % 4294967296) % 65536 = w % 65536 :=
    Int.emod_emod_of_dvd w (by norm_num)
  have hlt : w % 65536 < 65536 := Int.emod_lt_of_pos w (by norm_num)
  omega

theorem wordLo_eq (w : Int) : wordLo w = (w % 65536).toNat % 256 := by
  unfold wordLo jsToUint32
  rw [and_255_eq_mod]
  have h32 : (0 : Int) ≤ w % 4294967296 := Int.emod_nonneg w (by norm_num)
  have h16 : (0 : Int) ≤ w % 65536 := Int.emod_nonneg w (by norm_num)
  have hmod : (w % 4294967296) % 65536 = w % 65536 :=
    Int.emod_emod_of_dvd w (by norm_num)
  have hlt : w % 65536 < 65536 := Int.emod_lt_of_pos w (by norm_num)
  omega

/-! ## Claim C1 -/

/-- C1: for a client with default options (CS family, default FINS header
fields `ICF=0x80, RSV=0, GCT=0x02, DNA/DA1/DA2/SNA/SA1/SA2=0`) whose
freshly allocated SID is 1, `read("D0", 10)` assembles exactly the 18
outbound bytes `80 00 02 00 00 00 00 00 00 01 01 01 82 00 00 00 00 0A`:
the 10-byte header, command code `01 01`, the 4-byte address encoding
`82 00 00 00` for word address D0, and the big-endian count `00 0A`. -/
theorem claim_C1_read_frame :
    readPacket DefaultFinsHeader (memoryAreasFor "CS") "D0" 10 =
      some [0x80, 0x00, 0x02, 0x00, 0x00, 0x00, 0x00, 0x00, 0x00, 0x01,
            0x01, 0x01, 0x82, 0x00, 0x00, 0x00, 0x00, 0x0A] := by decide

/-! ## Claim C3 -/

/-- C3 (counterexample): decoding `MRES=0xC0, SRES=0x40` does NOT yield
the end-code string `"0040"` — the source masks `SRES &= 0x2f`, which
clears the `0x40` bit before the hex rendering. -/
theorem claim_C3_counterexample : (processEndCode 0xC0 0x40).endCode ≠ "0040" := by decide

/-- C3 (amended): decoding the end-code byte pair `MRES=0xC0, SRES=0x40`
yields `networkRelayError=true`, `nonFatalCpuUnitError=true`,
`fatalCpuUnitError=false`, and — because the masks `MRES &= 0x3F`,
`SRES &= 0x2F` clear both set bits — the 4-hex-digit end-code string
`"0000"`. -/
theorem claim_C3_amended :
    (processEndCode 0xC0 0x40).NetworkRelayError = true ∧
    (processEndCode 0xC0 0x40).NonFatalCPUUnitErr = true ∧
    (processEndCode 0xC0 0x40).FatalCPUUnitErr = false ∧
    (processEndCode 0xC0 0x40).endCode = "0000" := by decide

/-! ## Claim C4 -/

/-- C4: for every current SID value `s`, the next allocated SID equals
`(|s| mod 254) + 1`; hence every allocated SID lies in `[1, 254]`, and
the successor of SID 254 is SID 1. -/
theorem claim_C4_sid_allocation :
    (∀ s : Int, incrementSID s = ((s.natAbs % 254 : Nat) : Int) + 1) ∧
    (∀ s : Int, 1 ≤ incrementSID s ∧ incrementSID s ≤ 254) ∧
    incrementSID 254 = 1 := by
  refine ⟨fun s => rfl, fun s => ?_, by decide⟩
  unfold incrementSID
  have h : s.natAbs % 254 < 254 := Nat.mod_lt _ (by norm_num)
  omega

/-! ## Claim C5 -/

/-- C5: the `add` guard of the `SequenceManager` checks only
`!seq.complete && !seq.timeout` — it reports "This SID is already waiting
a reply" even for a slot whose sequence already terminated with `error`
(which the claim, `activeCount`, and the timer callback all treat as
terminal).  Evaluated at the failing input: a slot holding an errored,
otherwise unterminated sequence. -/
theorem claim_C5_add_checks_error_flag :
    addReportsSidInUse
        (some { complete := false, timeout := false, error := true, timerLive := false }) =
      true ∧
    slotNonTerminal
        (some { complete := false, timeout := false, error := true, timerLive := false }) =
      false := by decide

/-! ## Claim C6 -/

/-- C6 (counterexample): the interleaving `add; timer expiry; done` — a
request that times out and then receives a late reply — leaves BOTH
`timeout` and `complete` set on the same sequence, because `done` marks
`complete` without checking for a prior terminal flag. -/
theorem claim_C6_counterexample :
    (runSeq [SeqEvent.fire, SeqEvent.done]).timeout = true ∧
    (runSeq [SeqEvent.fire, SeqEvent.done]).complete = true := by decide

/-! ## Claim C7 -/

/-- C7: on queue-full, `read` (like `fill`, `readMultiple`, `transfer`,
`run`, `stop`, `status`, `cpuUnitDataRead` and `command`) calls
`_sendFull(self, callback)`, which invokes the supplied callback with
`"full"` and emits the `'full'` event — but `write` calls
`_sendFull(callback)`, so the callback arrives in the `self` parameter:
the callback is never invoked, no `'full'` event is emitted, and the call
throws a `TypeError` on `self.emit` (so `write` does not return `null`). -/
theorem claim_C7_write_send_full :
    (∀ cb : Bool, readFullBranch cb =
      { callbackGotFull := cb, fullEventEmitted := true, threwTypeError := false }) ∧
    (∀ cb : Bool, writeFullBranch cb =
      { callbackGotFull := false, fullEventEmitted := false, threwTypeError := true }) := by
  constructor <;> intro cb <;> cases cb <;> decide

/-! ## Claim C2 -/

/-- C2 (counterexample): the extended-memory canonical form `"E1_200"`
does not survive the round trip — `addressToString` concatenates the area
mnemonic directly with the offset and never restores the underscore the
parse consumed, rendering `"E1200"`. -/
theorem claim_C2_counterexample :
    (stringToAddress "E1_200").map (fun a => addressToString a 0 0) = some "E1200" ∧
    (stringToAddress "E1_200").map (fun a => addressToString a 0 0) ≠ some "E1_200" := by
  constructor
  · rfl
  · decide

/-! ## Helper lemmas: the plain-regex scan on canonical inputs -/

theorem takeWhile_of_all (p : Char → Bool) (l : List Char) (h : ∀ c ∈ l, p c = true) :
    l.takeWhile p = l := by
  induction l with
  | nil => rfl
  | cons c cs ih =>
    rw [List.takeWhile_cons_of_pos (h c (List.mem_cons_self c cs))]
    rw [ih fun x hx => h x (List.mem_cons_of_mem c hx)]

theorem regexMatchPlain_canonical (area ds tail : List Char)
    (hup : ∀ c ∈ area, isUpperChar c = true)
    (hdsne : ds ≠ []) (hdsall : ∀ c ∈ ds, isDigitChar c = true)
    (htail : tail = [] ∨ ∃ bs, tail = '.' :: bs ∧ ∀ c ∈ bs, isDigitChar c = true) :
    regexMatchPlain (area ++ ds ++ tail) = (area, ds, tail.tail) := by
  obtain ⟨d, ds', rfl⟩ := List.exists_cons_of_ne_nil hdsne
  have hdup : isUpperChar d = false :=
    not_upper_of_digit (hdsall d (List.mem_cons_self d ds'))
  rw [List.append_assoc, List.cons_append]
  have htake1 : List.takeWhile isUpperChar (area ++ d :: (ds' ++ tail)) = area := by
    rw [List.takeWhile_append_of_pos hup,
      List.takeWhile_cons_of_neg (by simp [hdup]), List.append_nil]
  have hdrop1 : List.dropWhile isUpperChar (area ++ d :: (ds' ++ tail)) = d :: (ds' ++ tail) := by
    rw [List.dropWhile_append_of_pos hup, List.dropWhile_cons_of_neg (by simp [hdup])]
  have htake2 : List.takeWhile isDigitChar (d :: (ds' ++ tail)) = d :: ds' := by
    show List.takeWhile isDigitChar ((d :: ds') ++ tail) = d :: ds'
    rw [List.takeWhile_append_of_pos hdsall]
    rcases htail with rfl | ⟨bs, rfl, _⟩
    · simp
    · rw [List.takeWhile_cons_of_neg (by decide), List.append_nil]
  have hdrop2 : List.dropWhile isDigitChar (d :: (ds' ++ tail)) = tail := by
    show List.dropWhile isDigitChar ((d :: ds') ++ tail) = tail
    rw [List.dropWhile_append_of_pos hdsall]
    rcases htail with rfl | ⟨bs, rfl, _⟩
    · simp
    · rw [List.dropWhile_cons_of_neg (by decide)]
  unfold regexMatchPlain
  simp only [htake1, hdrop1, htake2, hdrop2]
  rcases htail with rfl | ⟨bs, rfl, hbs⟩
  · rfl
  · simp only [List.tail_cons]
    rw [takeWhile_of_all _ bs hbs]

theorem stringToAddress_plain (cs m1 m2 m3 : List Char) (hno : '_' ∉ cs)
    (hre : regexMatchPlain cs = (m1, m2, m3)) :
    stringToAddress ⟨cs⟩ =
      some
        { MemoryArea := ⟨m1⟩
          Address := jsNumberOfDigits m2
          Bit := if m3 = [] then none else some (digitsVal m3) } := by
  unfold stringToAddress
  simp [hno, hre]

/-! ## Claim C2 (amended) -/

/-- C2 (amended): for canonical word-form and bit-form address strings —
a non-empty all-uppercase area mnemonic followed by a decimal offset and,
optionally, `"."` and a decimal bit index, with offset and bit inside the
JS safe-integer range (`< 2^53`) — rendering the parsed address back with
zero offsets reproduces the input exactly.  Two exclusions the code
forces: extended-memory forms such as `"E1_200"` (the parse consumes the
underscore and the renderer does not restore it, producing `"E1200"`),
and offsets outside the safe-integer range, where `Number(...)` rounds
(`"D9007199254740993"` re-renders as `"D9007199254740992"`) or switches
to exponential notation (`≥ 10^21`), which this model's exact arithmetic
deliberately does not cover. -/
theorem claim_C2_amended (area : List Char) (offset : Nat) (bit : Option Nat)
    (hne : area ≠ []) (hup : ∀ c ∈ area, isUpperChar c = true)
    (hoff : offset < 2 ^ 53) (hbit : ∀ b, bit = some b → b < 2 ^ 53) :
    ∃ a,
      stringToAddress
          ⟨area ++ toDigits offset ++
            (match bit with | some b => '.' :: toDigits b | none => [])⟩ =
        some a ∧
      addressToString a 0 0 =
        ⟨area ++ toDigits offset ++
          (match bit with | some b => '.' :: toDigits b | none => [])⟩ := by
  have hdsall := toDigits_all_digits offset
  have hdsne := toDigits_ne_nil offset
  have hmk : ∀ x y : List Char, (⟨x⟩ : String) ++ (⟨y⟩ : String) = ⟨x ++ y⟩ :=
    fun x y => rfl
  cases bit with
  | none =>
    show ∃ a,
      stringToAddress ⟨area ++ toDigits offset ++ []⟩ = some a ∧
        addressToString a 0 0 = ⟨area ++ toDigits offset ++ []⟩
    rw [List.append_nil]
    have hno : '_' ∉ area ++ toDigits offset := by
      intro hm
      rcases List.mem_append.mp hm with hc | hc
      · exact upper_ne_underscore (hup _ hc) rfl
      · exact digit_ne_underscore (hdsall _ hc) rfl
    have hre : regexMatchPlain (area ++ toDigits offset) = (area, toDigits offset, []) := by
      have h := regexMatchPlain_canonical area (toDigits offset) [] hup hdsne hdsall (Or.inl rfl)
      rwa [List.append_nil] at h
    refine ⟨_, stringToAddress_plain _ _ _ _ hno hre, ?_⟩
    simp only [addressToString, jsNumberOfDigits, reduceIte,
      digitsVal_toDigits, Nat.add_zero, natToString]
    exact hmk area (toDigits offset)
  | some b =>
    show ∃ a,
      stringToAddress ⟨area ++ toDigits offset ++ ('.' :: toDigits b)⟩ = some a ∧
        addressToString a 0 0 = ⟨area ++ toDigits offset ++ ('.' :: toDigits b)⟩
    have hno : '_' ∉ area ++ toDigits offset ++ ('.' :: toDigits b) := by
      intro hm
      simp only [List.mem_append, List.mem_cons] at hm
      rcases hm with (hc | hc) | hc | hc
      · exact upper_ne_underscore (hup _ hc) rfl
      · exact digit_ne_underscore (hdsall _ hc) rfl
      · exact absurd hc (by decide)
      · exact digit_ne_underscore (toDigits_all_digits b _ hc) rfl
    have hre := regexMatchPlain_canonical area (toDigits offset) ('.' :: toDigits b) hup hdsne
      hdsall (Or.inr ⟨toDigits b, rfl, toDigits_all_digits b⟩)
    rw [List.tail_cons] at hre
    refine ⟨_, stringToAddress_plain _ _ _ _ hno hre, ?_⟩
    simp only [addressToString, jsNumberOfDigits, if_neg (toDigits_ne_nil b),
      digitsVal_toDigits, Nat.add_zero, natToString]
    rw [hmk, show ("." : String) = ⟨['.']⟩ from rfl, hmk, hmk]
    congr 1
    simp

/-- Witness for `claim_C2_amended` at the canonical word form `"D100"`. -/
theorem claim_C2_amended_witness :
    (['D'] : List Char) ≠ [] ∧
    (∀ c ∈ (['D'] : List Char), isUpperChar c = true) ∧
    100 < 2 ^ 53 ∧
    ∃ a,
      stringToAddress ⟨['D'] ++ toDigits 100 ++ []⟩ = some a ∧
      addressToString a 0 0 = ⟨['D'] ++ toDigits 100 ++ []⟩ :=
  ⟨by decide, by decide, by norm_num,
    claim_C2_amended ['D'] 100 none (by decide) (by decide) (by norm_num)
      (fun b hb => by cases hb)⟩

/-! ## Claim C6 (amended) -/

/-- C6 (amended): any step that takes a non-terminal sequence to a
terminal one sets exactly one of `{complete, timeout, error}`, and no
sequence with a terminal flag set retains a live timer.  (The claim's
stronger "never two flags" fails: `done` or `setError` applied to an
already-terminal sequence — e.g. a late reply after a timeout — sets an
additional flag, as the counterexample shows.) -/
theorem claim_C6_amended :
    (∀ events : List SeqEvent,
      ((runSeq events).complete || (runSeq events).timeout || (runSeq events).error) = true →
        (runSeq events).timerLive = false) ∧
    (∀ (s : Sequence) (e : SeqEvent),
      s.complete = false → s.timeout = false → s.error = false →
        terminalFlagCount (seqStep s e) ≤ 1) := by
  constructor
  · have step_pres : ∀ (s : Sequence) (e : SeqEvent),
        ((s.complete || s.timeout || s.error) = true → s.timerLive = false) →
        (((seqStep s e).complete || (seqStep s e).timeout || (seqStep s e).error) = true →
          (seqStep s e).timerLive = false) := by
      rintro ⟨c, t, er, tl⟩ e h
      cases e <;> cases c <;> cases t <;> cases er <;> cases tl <;> simp_all [seqStep]
    have key : ∀ (evs : List SeqEvent) (s : Sequence),
        ((s.complete || s.timeout || s.error) = true → s.timerLive = false) →
        (((evs.foldl seqStep s).complete || (evs.foldl seqStep s).timeout ||
            (evs.foldl seqStep s).error) = true →
          (evs.foldl seqStep s).timerLive = false) := by
      intro evs
      induction evs with
      | nil => exact fun s hs => hs
      | cons e evs ih => exact fun s hs => ih (seqStep s e) (step_pres s e hs)
    exact fun events => key events initSequence (by simp [initSequence])
  · rintro ⟨c, t, er, tl⟩ e hc ht he
    subst hc; subst ht; subst he
    cases e <;> cases tl <;> simp [seqStep, terminalFlagCount]

/-- Witness for `claim_C6_amended`: the timer firing on a fresh sequence
is a terminal transition with a dead timer and exactly one flag. -/
theorem claim_C6_amended_witness :
    (((runSeq [SeqEvent.fire]).complete || (runSeq [SeqEvent.fire]).timeout ||
        (runSeq [SeqEvent.fire]).error) = true ∧
      (runSeq [SeqEvent.fire]).timerLive = false) ∧
    (initSequence.complete = false ∧ initSequence.timeout = false ∧
      initSequence.error = false ∧
      terminalFlagCount (seqStep initSequence SeqEvent.done) ≤ 1) :=
  ⟨⟨by decide, claim_C6_amended.1 [SeqEvent.fire] (by decide)⟩,
   ⟨rfl, rfl, rfl, claim_C6_amended.2 initSequence SeqEvent.done rfl rfl rfl⟩⟩

/-! ## Claim C8 -/

/-- C8 (counterexample): two word addresses require six response-body
bytes, yet the three-byte body `82 00 0A` — truncated at an entry
boundary — is processed without any error into the one-element value list
`[10]`, not a `ProtocolError`. -/
theorem claim_C8_counterexample :
    requiredBytes
        [{ MemoryArea := "D", Address := some 100, Bit := none },
         { MemoryArea := "D", Address := some 101, Bit := none }] = 6 ∧
    multiReadLoop (memoryAreasFor "CS")
        [{ MemoryArea := "D", Address := some 100, Bit := none },
         { MemoryArea := "D", Address := some 101, Bit := none }]
        [0x82, 0x00, 0x0A] =
      .ok [MultiVal.word 10] :=
  ⟨by decide, rfl⟩

theorem multiRead_truncated (areas : MemoryAreas) (as1 : List MemoryAddress)
    (body : List Nat) (h : AlignedBody areas as1 body) :
    ∀ as2, ∃ vals,
      multiReadLoop areas (as1 ++ as2) body = .ok vals ∧ vals.length = as1.length := by
  induction h with
  | nil =>
    intro as2
    refine ⟨[], ?_, rfl⟩
    cases as2 <;> rfl
  | bit a c v as body hc hb h ih =>
    intro as2
    obtain ⟨vals, hv, hlen⟩ := ih as2
    refine ⟨MultiVal.bit v :: vals, ?_, by simp [hlen]⟩
    rw [List.cons_append]
    simp [multiReadLoop, hc, hb, hv]
  | word a c v1 v2 as body hc hb h ih =>
    intro as2
    obtain ⟨vals, hv, hlen⟩ := ih as2
    refine ⟨MultiVal.word (readInt16BE v1 v2) :: vals, ?_, by simp [hlen]⟩
    rw [List.cons_append]
    simp [multiReadLoop, hc, hb, hv]

theorem multiRead_midword (areas : MemoryAreas) (as1 : List MemoryAddress)
    (body : List Nat) (h : AlignedBody areas as1 body) :
    ∀ (a : MemoryAddress) (c : Nat) (rest : List MemoryAddress),
      a.memoryAreaCode areas = some c → a.isBitAddress = false →
      multiReadLoop areas (as1 ++ a :: rest) (body ++ [c]) = .error .rangeError := by
  induction h with
  | nil =>
    intro a c rest hc hb
    simp [multiReadLoop, hc, hb]
  | bit a' c' v as body hc' hb' h ih =>
    intro a c rest hc hb
    rw [List.cons_append, List.cons_append, List.cons_append]
    simp [multiReadLoop, hc', hb', ih a c rest hc hb]
  | word a' c' v1 v2 as body hc' hb' h ih =>
    intro a c rest hc hb
    rw [List.cons_append, List.cons_append, List.cons_append, List.cons_append]
    simp [multiReadLoop, hc', hb', ih a c rest hc hb]

/-- C8 (amended): the multi-read walk stops quietly at the end of the
response body: a body that is a well-formed encoding of a proper prefix of
the request's address list is accepted and yields a correspondingly
truncated value list — no error is raised for the missing entries.  Only a
body cut in the middle of a word entry raises an error (`readInt16BE`'s
range error); the explicit "unexpected memory address" protocol error is
reserved for bodies that outrun the address list or echo a wrong area
code. -/
theorem claim_C8_amended :
    (∀ (areas : MemoryAreas) (as1 as2 : List MemoryAddress) (body : List Nat),
      AlignedBody areas as1 body →
        ∃ vals,
          multiReadLoop areas (as1 ++ as2) body = .ok vals ∧ vals.length = as1.length) ∧
    (∀ (areas : MemoryAreas) (as1 : List MemoryAddress) (body : List Nat)
        (a : MemoryAddress) (c : Nat) (rest : List MemoryAddress),
      AlignedBody areas as1 body → a.memoryAreaCode areas = some c →
        a.isBitAddress = false →
        multiReadLoop areas (as1 ++ a :: rest) (body ++ [c]) = .error .rangeError) :=
  ⟨fun areas as1 as2 body h => multiRead_truncated areas as1 body h as2,
   fun areas as1 body a c rest h hc hb => multiRead_midword areas as1 body h a c rest hc hb⟩

/-- Witness for `claim_C8_amended`: one aligned word entry `82 00 05`
followed by a second pending address (truncated-at-boundary case), and the
same body extended by a lone echoed area code (mid-word case). -/
theorem claim_C8_amended_witness :
    (∃ vals,
      multiReadLoop (memoryAreasFor "CS")
          ([{ MemoryArea := "D", Address := some 100, Bit := none }] ++
            [{ MemoryArea := "D", Address := some 101, Bit := none }])
          [0x82, 0x00, 0x05] =
        .ok vals ∧
      vals.length = 1) ∧
    multiReadLoop (memoryAreasFor "CS")
        ([{ MemoryArea := "D", Address := some 100, Bit := none }] ++
          [{ MemoryArea := "D", Address := some 101, Bit := none }])
        ([0x82, 0x00, 0x05] ++ [0x82]) =
      .error .rangeError :=
  ⟨claim_C8_amended.1 (memoryAreasFor "CS") _ _ _
      (AlignedBody.word _ 0x82 0x00 0x05 [] [] rfl rfl AlignedBody.nil),
   claim_C8_amended.2 (memoryAreasFor "CS") _ _ _ 0x82 _
      (AlignedBody.word _ 0x82 0x00 0x05 [] [] rfl rfl AlignedBody.nil) rfl rfl⟩

/-! ## Claim C9 -/

/-- C9: `wordsToBytes` is total on integer lists and length-homomorphic —
`n` input words produce exactly `2n` bytes — and each word `w` contributes
the big-endian pair of its value reduced modulo `2^16` (high byte
`(w mod 2^16) / 256`, low byte `(w mod 2^16) mod 256`), every emitted byte
lying in `0..255`.  Consequently `write` and `fill`, whose word payloads
are built by this function, encode each supplied word modulo `2^16`. -/
theorem claim_C9_words_to_bytes :
    ∀ words : List Int,
      (wordsToBytes words).length = 2 * words.length ∧
      wordsToBytes words =
        words.flatMap (fun w => [(w % 65536).toNat / 256, (w % 65536).toNat % 256]) ∧
      (wordsToBytes words).all (fun b => decide (b < 256)) = true := by
  intro words
  refine ⟨?_, ?_, ?_⟩
  · induction words with
    | nil => rfl
    | cons w ws ih =>
      simp only [wordsToBytes, List.length_cons, ih]
      omega
  · induction words with
    | nil => rfl
    | cons w ws ih =>
      simp only [wordsToBytes, List.flatMap_cons, ih, wordHi_eq, wordLo_eq]
      rfl
  · induction words with
    | nil => rfl
    | cons w ws ih =>
      have h16 : (w % 65536).toNat < 65536 := by
        have h1 : (0 : Int) ≤ w % 65536 := Int.emod_nonneg w (by norm_num)
        have h2 : w % 65536 < 65536 := Int.emod_lt_of_pos w (by norm_num)
        omega
      simp only [wordsToBytes, List.all_cons, ih, Bool.and_true, Bool.and_eq_true,
        decide_eq_true_eq, wordHi_eq, wordLo_eq]
      omega

/-! ## Helper lemmas: property-key coercion of numbers -/

theorem intToChars_eq_toDigits (n : Int) (m : Nat) (h : intToChars n = toDigits m) :
    n = m := by
  unfold intToChars at h
  split at h
  · have hm : '-' ∈ toDigits m := by
      rw [← h]; exact List.mem_cons_self _ _
    have := toDigits_all_digits m '-' hm
    simp [isDigitChar] at this
  · have := congrArg digitsVal h
    rw [digitsVal_toDigits, digitsVal_toDigits] at this
    omega

theorem intToChars_ne_cons (n : Int) (c : Char) (cs : List Char)
    (hc : isDigitChar c = false) (hc2 : c ≠ '-') : intToChars n ≠ c :: cs := by
  unfold intToChars
  split
  · intro h
    injection h with h1 _
    exact hc2 h1.symm
  · intro h
    have hm : c ∈ toDigits n.toNat := by
      rw [h]; exact List.mem_cons_self _ _
    rw [toDigits_all_digits n.toNat c hm] at hc
    cases hc


theorem trueish_of_key (v : JsVal)
    (h : normaliseBoolKey v = "1".data ∨ normaliseBoolKey v = "true".data ∨
      normaliseBoolKey v = "on".data ∨ normaliseBoolKey v = "constructor".data ∨
      normaliseBoolKey v = "__proto__".data) :
    claimTrueValue v ∨ prototypeTrueValue v := by
  cases v with
  | num n =>
    simp only [normaliseBoolKey] at h
    rcases h with h | h | h | h | h
    · have h1 : intToChars n = toDigits 1 := by
        rw [h]; decide
      have := intToChars_eq_toDigits n 1 h1
      exact Or.inl (Or.inl (by rw [this]; norm_num))
    · exact absurd h (intToChars_ne_cons n 't' _ (by decide) (by decide))
    · exact absurd h (intToChars_ne_cons n 'o' _ (by decide) (by decide))
    · exact absurd h (intToChars_ne_cons n 'c' _ (by decide) (by decide))
    · exact absurd h (intToChars_ne_cons n '_' _ (by decide) (by decide))
  | bool b =>
    cases b
    · simp only [normaliseBoolKey] at h
      rcases h with h | h | h | h | h <;> exact absurd h (by decide)
    · exact Or.inl (Or.inr (Or.inl rfl))
  | str s =>
    rcases h with h | h | h | h | h
    · exact Or.inl (Or.inr (Or.inr ⟨s, rfl, Or.inl h⟩))
    · exact Or.inl (Or.inr (Or.inr ⟨s, rfl, Or.inr (Or.inl h)⟩))
    · exact Or.inl (Or.inr (Or.inr ⟨s, rfl, Or.inr (Or.inr h)⟩))
    · exact Or.inr ⟨s, rfl, Or.inl h⟩
    · exact Or.inr ⟨s, rfl, Or.inr h⟩

theorem claimFalse_of_key (v : JsVal)
    (h : normaliseBoolKey v = "0".data ∨ normaliseBoolKey v = "false".data ∨
      normaliseBoolKey v = "off".data) :
    claimFalseValue v := by
  cases v with
  | num n =>
    simp only [normaliseBoolKey] at h
    rcases h with h | h | h
    · have h0 : intToChars n = toDigits 0 := by
        rw [h]; decide
      have := intToChars_eq_toDigits n 0 h0
      exact Or.inl (by rw [this]; norm_num)
    · exact absurd h (intToChars_ne_cons n 'f' _ (by decide) (by decide))
    · exact absurd h (intToChars_ne_cons n 'o' _ (by decide) (by decide))
  | bool b =>
    cases b
    · exact Or.inr (Or.inl rfl)
    · simp only [normaliseBoolKey] at h
      rcases h with h | h | h <;> exact absurd h (by decide)
  | str s => exact Or.inr (Or.inr ⟨s, rfl, h⟩)

theorem normaliseBool_error_msg (v : JsVal) (e : String)
    (h : normaliseBool v = .error e) : e = "Invalid boolean value" := by
  unfold normaliseBool at h
  split at h
  · cases h
  · split at h
    · cases h
    · injection h with h
      exact h.symm

theorem boolsToBytes_error (data : List JsVal) (v : JsVal) (hv : v ∈ data)
    (he : normaliseBool v = .error "Invalid boolean value") :
    boolsToBytes data = .error "Invalid boolean value" := by
  induction data with
  | nil => cases hv
  | cons w ws ih =>
    rcases List.mem_cons.mp hv with rfl | hv'
    · simp [boolsToBytes, he]
    · cases hw : normaliseBool w with
      | error e =>
        have := normaliseBool_error_msg w e hw
        simp [boolsToBytes, hw, this]
      | ok b => simp [boolsToBytes, hw, ih hv']

/-! ## Claim C10 -/

/-- C10 (counterexample): `"Constructor"` is none of the claim's true or
false literals, yet after trimming and lowercasing the lookup
`allowableTrueValues["constructor"]` finds the inherited
`Object.prototype.constructor` — a truthy function — so the source
encodes it to byte 1 and the bit write sends a frame (`00 01` count,
payload `01`) instead of throwing `Error("Invalid boolean value")`. -/
theorem claim_C10_counterexample :
    normaliseBool (.str "Constructor") = .ok 1 ∧
    writeBitPacket [] [] [] [.str "Constructor"] = .ok [0, 1, 1] ∧
    ¬claimTrueValue (.str "Constructor") ∧
    ¬claimFalseValue (.str "Constructor") := by
  refine ⟨rfl, rfl, ?_, ?_⟩
  · rintro (h | h | ⟨s, hs, hk⟩)
    · cases h
    · cases h
    · injection hs with hs
      subst hs
      rcases hk with hk | hk | hk <;> exact absurd hk (by decide)
  · rintro (h | h | ⟨s, hs, hk⟩)
    · cases h
    · cases h
    · injection hs with hs
      subst hs
      rcases hk with hk | hk | hk <;> exact absurd hk (by decide)

/-- C10 (amended): when writing to a bit address every data element is
normalised before transmission: the claim's true values (`1`, `true`, and
strings whose trimmed lowercase form is `"1"`, `"true"` or `"on"`) — and,
through the prototype chain of the lookup object literal, strings whose
trimmed lowercase form is `"constructor"` or `"__proto__"` — encode to
byte 1; the values `0`, `false`, `"0"`, `"false"`, `"off"` encode to
byte 0; every other element makes the write throw
`Error("Invalid boolean value")` before any frame is assembled. -/
theorem claim_C10_amended :
    (∀ v : JsVal, claimTrueValue v ∨ prototypeTrueValue v → normaliseBool v = .ok 1) ∧
    (∀ v : JsVal, claimFalseValue v → normaliseBool v = .ok 0) ∧
    (∀ v : JsVal, ¬claimTrueValue v → ¬prototypeTrueValue v → ¬claimFalseValue v →
      normaliseBool v = .error "Invalid boolean value") ∧
    (∀ (header command addressData : List Nat) (data : List JsVal) (v : JsVal),
      v ∈ data → ¬claimTrueValue v → ¬prototypeTrueValue v → ¬claimFalseValue v →
        writeBitPacket header command addressData data =
          .error "Invalid boolean value") := by
  have hok1 : ∀ v : JsVal, claimTrueValue v ∨ prototypeTrueValue v →
      normaliseBool v = .ok 1 := by
    intro v hT
    rcases hT with (rfl | rfl | ⟨s, rfl, hk⟩) | ⟨s, rfl, hk⟩
    · rfl
    · rfl
    · have hcond : jsToLower (jsTrim s.data) = "1".data ∨
          jsToLower (jsTrim s.data) = "true".data ∨
          jsToLower (jsTrim s.data) = "on".data ∨
          jsToLower (jsTrim s.data) = "constructor".data ∨
          jsToLower (jsTrim s.data) = "__proto__".data := by
        rcases hk with hk | hk | hk
        exacts [Or.inl hk, Or.inr (Or.inl hk), Or.inr (Or.inr (Or.inl hk))]
      simp only [normaliseBool, normaliseBoolKey]
      rw [if_pos hcond]
    · have hcond : jsToLower (jsTrim s.data) = "1".data ∨
          jsToLower (jsTrim s.data) = "true".data ∨
          jsToLower (jsTrim s.data) = "on".data ∨
          jsToLower (jsTrim s.data) = "constructor".data ∨
          jsToLower (jsTrim s.data) = "__proto__".data := by
        rcases hk with hk | hk
        exacts [Or.inr (Or.inr (Or.inr (Or.inl hk))),
          Or.inr (Or.inr (Or.inr (Or.inr hk)))]
      simp only [normaliseBool, normaliseBoolKey]
      rw [if_pos hcond]
  have hok0 : ∀ v : JsVal, claimFalseValue v → normaliseBool v = .ok 0 := by
    intro v hF
    rcases hF with rfl | rfl | ⟨s, rfl, hk⟩
    · rfl
    · rfl
    · simp only [normaliseBool, normaliseBoolKey]
      rw [if_neg, if_pos hk]
      rintro (h | h | h | h | h) <;> rcases hk with hk | hk | hk <;>
        rw [hk] at h <;> cases h
  have herr : ∀ v : JsVal, ¬claimTrueValue v → ¬prototypeTrueValue v →
      ¬claimFalseValue v → normaliseBool v = .error "Invalid boolean value" := by
    intro v hT hP hF
    unfold normaliseBool
    rw [if_neg (fun h => (trueish_of_key v h).elim hT hP),
      if_neg (fun h => hF (claimFalse_of_key v h))]
  refine ⟨hok1, hok0, herr, ?_⟩
  intro header command addressData data v hv hT hP hF
  unfold writeBitPacket
  rw [boolsToBytes_error data v hv (herr v hT hP hF)]

/-- Witness for `claim_C10_amended`: `" ON "` encodes to 1, `0` to 0,
`"maybe"` throws, and a bit write containing `"maybe"` produces no
frame. -/
theorem claim_C10_amended_witness :
    normaliseBool (.str " ON ") = .ok 1 ∧
    normaliseBool (.num 0) = .ok 0 ∧
    normaliseBool (.str "maybe") = .error "Invalid boolean value" ∧
    writeBitPacket [] [] [] [.str "maybe"] = .error "Invalid boolean value" := by
  have hT : claimTrueValue (.str " ON ") :=
    Or.inr (Or.inr ⟨" ON ", rfl, Or.inr (Or.inr (by decide))⟩)
  have hnT : ¬claimTrueValue (.str "maybe") := by
    rintro (h | h | ⟨s, hs, hk⟩)
    · cases h
    · cases h
    · injection hs with hs
      subst hs
      rcases hk with hk | hk | hk <;> exact absurd hk (by decide)
  have hnP : ¬prototypeTrueValue (.str "maybe") := by
    rintro ⟨s, hs, hk⟩
    injection hs with hs
    subst hs
    rcases hk with hk | hk <;> exact absurd hk (by decide)
  have hnF : ¬claimFalseValue (.str "maybe") := by
    rintro (h | h | ⟨s, hs, hk⟩)
    · cases h
    · cases h
    · injection hs with hs
      subst hs
      rcases hk with hk | hk | hk <;> exact absurd hk (by decide)
  exact ⟨claim_C10_amended.1 _ (Or.inl hT),
    claim_C10_amended.2.1 _ (Or.inl rfl),
    claim_C10_amended.2.2.1 _ hnT hnP hnF,
    claim_C10_amended.2.2.2 [] [] [] [.str "maybe"] _
      (List.mem_cons_self _ _) hnT hnP hnF⟩
